import Mathlib

/-!
Verification of the conversion orchestration subsystem of a browser-based
media converter (a Svelte page driving an ffmpeg.wasm engine).  The
definitions below are a shallow embedding of `src/routes/+page.svelte`:
the capability parser `getFormatsFromLog`, the startup sequence
`loadFFmpeg`, the job driver `convertVideo`, the drop handler `onDropped`
and the `download` artifact builder.  Strings are handled as `List Char`
where character-level computation matters, and the JavaScript regex
`^(D|DE|E)\s+(\S+)\s+(.+)$` is embedded as an explicit backtracking
matcher with JavaScript alternation order and greedy quantifiers.
-/

namespace WasmPoc

/-- Character class of the JavaScript regex escape `\s` (and of the
whitespace stripped by `String.prototype.trim`). -/
def isJsWhitespace (c : Char) : Bool :=
  c = ' ' || c = '\t' || c = '\n' || c = '\r' ||
  c.val = 0x0b || c.val = 0x0c || c.val = 0xa0 || c.val = 0x1680 ||
  (0x2000 ≤ c.val && c.val ≤ 0x200a) || c.val = 0x2028 || c.val = 0x2029 ||
  c.val = 0x202f || c.val = 0x205f || c.val = 0x3000 || c.val = 0xfeff

/-- Characters the JavaScript regex `.` does *not* match (line terminators). -/
def isJsLineTerminator (c : Char) : Bool :=
  c = '\n' || c = '\r' || c.val = 0x2028 || c.val = 0x2029

/-- JavaScript `String.prototype.trim`: drop leading and trailing whitespace. -/
def jsTrim (cs : List Char) : List Char :=
  ((cs.dropWhile isJsWhitespace).reverse.dropWhile isJsWhitespace).reverse

/-- Whether the first character exists and is `\s` whitespace. -/
def headIsWs : List Char → Bool
  | c :: _ => isJsWhitespace c
  | [] => false

/-- Length of the maximal whitespace run at the head of the list. -/
def wsRunLength : List Char → Nat
  | [] => 0
  | c :: cs => if isJsWhitespace c then wsRunLength cs + 1 else 0

/-- Length of the maximal non-whitespace run at the head of the list. -/
def nonWsRunLength : List Char → Nat
  | [] => 0
  | c :: cs => if isJsWhitespace c then 0 else nonWsRunLength cs + 1

/-- Backtracking search: try `f n`, `f (n-1)`, …, `f 1` and return the first
success (greedy quantifier semantics: longest candidate first). -/
def firstSome (f : Nat → Option α) : Nat → Option α
  | 0 => none
  | k + 1 =>
    match f (k + 1) with
    | some a => some a
    | none => firstSome f k

/-- The regex piece `\s+` with backtracking: greedily consume `k` whitespace
characters (`1 ≤ k ≤` maximal run) and run the continuation on the rest. -/
def tryWsPlus (cs : List Char) (cont : List Char → Option α) : Option α :=
  firstSome (fun k => cont (cs.drop k)) (wsRunLength cs)

/-- The regex piece `(\S+)` with backtracking: greedily capture `k`
non-whitespace characters and run the continuation on capture and rest. -/
def tryNonWsPlus (cs : List Char) (cont : List Char → List Char → Option α) :
    Option α :=
  firstSome (fun k => cont (cs.take k) (cs.drop k)) (nonWsRunLength cs)

/-- The regex piece `(.+)$`: succeeds exactly when the remainder is nonempty
and free of line terminators, capturing the whole remainder. -/
def matchDotPlusEnd (cs : List Char) : Option (List Char) :=
  if cs ≠ [] ∧ cs.all (fun c => !isJsLineTerminator c) then some cs else none

/-- The tail `\s+(\S+)\s+(.+)$` of the format-line regex, returning the
captured abbreviation and name. -/
def matchTail (cs : List Char) : Option (List Char × List Char) :=
  tryWsPlus cs fun cs1 =>
    tryNonWsPlus cs1 fun abbr cs2 =>
      tryWsPlus cs2 fun cs3 =>
        (matchDotPlusEnd cs3).map fun nm => (abbr, nm)

/-- The whole regex `^(D|DE|E)\s+(\S+)\s+(.+)$` in JavaScript alternation
order (`D` is tried before `DE`), returning captures
(support flags, abbreviation, name). -/
def matchFormatLine (cs : List Char) :
    Option (List Char × List Char × List Char) :=
  match cs with
  | [] => none
  | c :: rest =>
    if c = 'D' then
      match matchTail rest with
      | some (abbr, nm) => some (['D'], abbr, nm)
      | none =>
        match rest with
        | [] => none
        | c2 :: rest2 =>
          if c2 = 'E' then
            match matchTail rest2 with
            | some (abbr, nm) => some (['D', 'E'], abbr, nm)
            | none => none
          else none
    else if c = 'E' then
      match matchTail rest with
      | some (abbr, nm) => some (['E'], abbr, nm)
      | none => none
    else none

/-- The `Format` record of the page: demux/mux support flags, abbreviation
and human-readable name. -/
structure Format where
  demuxingSupported : Bool
  muxingSupported : Bool
  abbreviation : String
  name : String
deriving DecidableEq

/-- One iteration of the loop body of `getFormatsFromLog`: trim the line,
match it against the format-line regex and build the `Format` record.  The
source tests the regex and then re-matches the same regex; the two guards
collapse into the single `match` here.  `support.includes("D")` on the
one- or two-character flags group is character containment. -/
def parseFormatLine (line : String) : Option Format :=
  let trimmedLine := jsTrim line.data
  match matchFormatLine trimmedLine with
  | none => none
  | some (support, abbreviation, nm) =>
    some { demuxingSupported := support.contains 'D'
           muxingSupported := support.contains 'E'
           abbreviation := String.mk abbreviation
           name := String.mk nm }

/-- `getFormatsFromLog`: fold the matcher over the logged lines, keeping
the parsed records of matching lines in input order. -/
def getFormatsFromLog (logMessages : List String) : List Format :=
  logMessages.filterMap parseFormatLine

/-- A trimmed line "starts with flags `D`, `DE`, or `E` followed by
whitespace" (the shape every regex match necessarily has). -/
def startsWithFlagsThenWs (cs : List Char) : Bool :=
  match cs with
  | [] => false
  | c :: rest =>
    if c = 'D' then
      headIsWs rest ||
        (match rest with
         | c2 :: rest2 => c2 = 'E' && headIsWs rest2
         | [] => false)
    else if c = 'E' then headIsWs rest
    else false

example :
    getFormatsFromLog ["D  asf    ASF (Advanced Streaming Format)"] =
      [{ demuxingSupported := true, muxingSupported := false,
         abbreviation := "asf", name := "ASF (Advanced Streaming Format)" }] := by
  decide

example :
    getFormatsFromLog ["DE mp4    MP4 (MPEG-4 Part 14)"] =
      [{ demuxingSupported := true, muxingSupported := true,
         abbreviation := "mp4", name := "MP4 (MPEG-4 Part 14)" }] := by
  decide

example : getFormatsFromLog ["File formats:", " --", ""] = [] := by decide

/-- The `Status` union of the page: `"loading" | "loaded" | "convert.start"
| "convert.done" | "convert.error"`. -/
inductive Status
  | loading
  | loaded
  | convertStart
  | convertDone
  | convertError
deriving DecidableEq

/-- The page's reactive state: `status`, `error`, `formats`,
`selectedOutputFormat`, and the target value of the tweened `progress`
store (the argument of the last `progress.set`, as a rational). -/
structure OrchState where
  status : Status
  error : String
  formats : List Format
  selectedOutputFormat : String
  progressTarget : ℚ
deriving DecidableEq

/-- Initial reactive state at component creation: `status = "loading"`,
`error = ""`, `formats = []`, `selectedOutputFormat = ""`,
`progress = tweened(0)`. -/
def initState : OrchState :=
  { status := .loading, error := "", formats := [],
    selectedOutputFormat := "", progressTarget := 0 }

/-- A dropped file, identified by its name (only the name is inspected). -/
structure DFile where
  name : String
deriving DecidableEq

/-- The engine's behaviour for one conversion: the exit code `exec`
resolves to, and the result of `readFile("output.mp4")` (`none` models a
rejected read, which the page does not catch). -/
structure EngineEnv where
  execExitCode : Int
  readFileResult : Option (List Nat)
deriving DecidableEq

/-- The `progress` event handler registered in `loadFFmpeg`:
`progress.set(event.progress * 100)`. -/
def onProgressEvent (s : OrchState) (frac : ℚ) : OrchState :=
  { s with progressTarget := frac * 100 }

/-- JavaScript `name.split(".")` for the one-character separator `"."`. -/
def jsSplitDot (cs : List Char) : List (List Char) :=
  match cs with
  | [] => [[]]
  | c :: rest =>
    let r := jsSplitDot rest
    if c = '.' then [] :: r
    else
      match r with
      | seg :: segs => (c :: seg) :: segs
      | [] => [[c]]

/-- JavaScript `haystack.endsWith(needle)`. -/
def jsEndsWith (haystack needle : List Char) : Bool :=
  decide (haystack.reverse.take needle.length = needle.reverse)

/-- State of the page right after the first two statements of
`convertVideo`: `status = "convert.start"; error = "";`. -/
def convertingEntryState (s : OrchState) : OrchState :=
  { s with status := .convertStart, error := "" }

/-- Everything one call of `convertVideo` does: the final reactive state,
the argument vector passed to `ffmpeg.exec`, the virtual filename given to
`ffmpeg.readFile` (when the read is reached), the value the function
returns (`none` is JavaScript `undefined`), and whether a rejected read
propagated as an uncaught exception. -/
structure ConvertResult where
  state : OrchState
  argv : List String
  readBack : Option String
  data : Option (List Nat)
  thrown : Bool
deriving DecidableEq

/-- `convertVideo`: enter the converting state, write the input bytes under
the fixed name `"input.webm"`, run
`exec(["-i", "input.webm", "output." ++ selectedOutputFormat])`; on a
non-zero exit code record the error and fail, otherwise read back the fixed
name `"output.mp4"` and finish. -/
def convertVideo (s : OrchState) (_video : DFile) (env : EngineEnv) :
    ConvertResult :=
  let s1 := convertingEntryState s
  let argv := ["-i", "input.webm", "output." ++ s.selectedOutputFormat]
  if env.execExitCode ≠ 0 then
    { state :=
        { s1 with error := "Failed to convert video", status := .convertError }
      argv := argv, readBack := none, data := none, thrown := false }
  else
    match env.readFileResult with
    | none =>
      { state := s1, argv := argv, readBack := some "output.mp4",
        data := none, thrown := true }
    | some bytes =>
      { state := { s1 with status := .convertDone }
        argv := argv, readBack := some "output.mp4",
        data := some bytes, thrown := false }

/-- Result of the drop handler: the final reactive state and, when the
handler got past validation, the conversion's `ConvertResult`. -/
structure DropResult where
  state : OrchState
  conversion : Option ConvertResult
deriving DecidableEq

/-- `onDropped`: early-return on zero files, reject more than one file,
compute the dropped file's extension via `split(".").pop() || ""`, look
for a demux-capable format with
`formats.filter(demuxingSupported).find((f) => file.name.endsWith(fileFormat))`
— the predicate ignores `f`, exactly as in the source — and either reject
with a validation message or run `convertVideo`.  The `[]` arm under the
length guards is unreachable (`files.length ≠ 0` there). -/
def onDropped (s : OrchState) (files : List DFile) (env : EngineEnv) :
    DropResult :=
  if files.length = 0 then { state := s, conversion := none }
  else if files.length > 1 then
    { state := { s with error := "Only one file is allowed" }
      conversion := none }
  else
    match files with
    | [] => { state := s, conversion := none }
    | file :: _ =>
      let fileFormat := (jsSplitDot file.name.data).getLastD []
      let supported :=
        (s.formats.filter (fun f => f.demuxingSupported)).find?
          (fun _f => jsEndsWith file.name.data fileFormat)
      if fileFormat = [] ∨ supported = none then
        { state := { s with error :=
            "Data format " ++ String.mk fileFormat ++ " not supported" }
          conversion := none }
      else
        let r := convertVideo s file env
        { state := r.state, conversion := some r }

/-- The `download` artifact: a blob of the produced bytes with MIME type
`"video/mp4"`, saved under the fixed name `"output.mp4"`. -/
structure DownloadArtifact where
  bytes : List Nat
  mime : String
  filename : String
deriving DecidableEq

/-- `download(data)`: build the artifact handed to the browser. -/
def download (data : List Nat) : DownloadArtifact :=
  { bytes := data, mime := "video/mp4", filename := "output.mp4" }

/-- State of the page after `await ffmpeg.exec(["-formats"])` resolves and
`formats = getFormatsFromLog(loggedFormats)` runs during `loadFFmpeg`
(status was already set to `"loaded"` beforehand). -/
def discoveredState (loggedFormats : List String) (init : OrchState) :
    OrchState :=
  { init with status := .loaded, formats := getFormatsFromLog loggedFormats }

/-- State after the final statements of `loadFFmpeg`:
`outputFormats = formats.filter(muxingSupported)` and, when that list is
nonempty, `selectedOutputFormat = outputFormats[0].abbreviation` (the
source guards the index with `length > 0`, matched here on the list). -/
def selectedState (loggedFormats : List String) (init : OrchState) :
    OrchState :=
  let s3 := discoveredState loggedFormats init
  match s3.formats.filter (fun f => f.muxingSupported) with
  | f :: _ => { s3 with selectedOutputFormat := f.abbreviation }
  | [] => s3

/-- The startup sequence `loadFFmpeg`, as the list of reactive-state
snapshots after each statement, in source order: initial state; after
`status = "loading"`; after `await ffmpeg.load(...)` succeeds and
`status = "loaded"`; after capability discovery populates `formats`;
after the conditional `selectedOutputFormat` assignment. -/
def loadFFmpegTrace (loggedFormats : List String) (init : OrchState) :
    List OrchState :=
  [init,
   { init with status := .loading },
   { init with status := .loaded },
   discoveredState loggedFormats init,
   selectedState loggedFormats init]

/-! Helper lemmas about the matcher and list combinators. -/

theorem tryWsPlus_some {α : Type} {cs : List Char} {cont : List Char → Option α}
    {a : α} (h : tryWsPlus cs cont = some a) : headIsWs cs = true := by
  cases cs with
  | nil => simp [tryWsPlus, wsRunLength, firstSome] at h
  | cons c rest =>
    by_cases hc : isJsWhitespace c
    · simp [headIsWs, hc]
    · simp [tryWsPlus, wsRunLength, hc, firstSome] at h

theorem matchTail_some_headWs {cs : List Char} {r : List Char × List Char}
    (h : matchTail cs = some r) : headIsWs cs = true :=
  tryWsPlus_some h

theorem matchFormatLine_nil : matchFormatLine [] = none := rfl

theorem matchFormatLine_cons (c : Char) (rest : List Char) :
    matchFormatLine (c :: rest) =
      (if c = 'D' then
        match matchTail rest with
        | some (abbr, nm) => some (['D'], abbr, nm)
        | none =>
          match rest with
          | [] => none
          | c2 :: rest2 =>
            if c2 = 'E' then
              match matchTail rest2 with
              | some (abbr, nm) => some (['D', 'E'], abbr, nm)
              | none => none
            else none
      else if c = 'E' then
        match matchTail rest with
        | some (abbr, nm) => some (['E'], abbr, nm)
        | none => none
      else none) := rfl

theorem matchFormatLine_some_starts {cs : List Char}
    {r : List Char × List Char × List Char} (h : matchFormatLine cs = some r) :
    startsWithFlagsThenWs cs = true := by
  cases cs with
  | nil => rw [matchFormatLine_nil] at h; exact absurd h (by simp)
  | cons c rest =>
    rw [matchFormatLine_cons] at h
    by_cases hD : c = 'D'
    · subst hD
      rw [if_pos rfl] at h
      cases hmt : matchTail rest with
      | some p =>
        simp [startsWithFlagsThenWs, matchTail_some_headWs hmt]
      | none =>
        rw [hmt] at h
        dsimp only at h
        cases rest with
        | nil => exact absurd h (by simp)
        | cons c2 rest2 =>
          dsimp only at h
          by_cases hE : c2 = 'E'
          · subst hE
            rw [if_pos rfl] at h
            cases hmt2 : matchTail rest2 with
            | some p =>
              simp [startsWithFlagsThenWs, matchTail_some_headWs hmt2]
            | none =>
              rw [hmt2] at h
              exact absurd h (by simp)
          · rw [if_neg hE] at h
            exact absurd h (by simp)
    · by_cases hE : c = 'E'
      · subst hE
        rw [if_neg (by decide), if_pos rfl] at h
        cases hmt : matchTail rest with
        | some p =>
          simp [startsWithFlagsThenWs, matchTail_some_headWs hmt]
        | none =>
          rw [hmt] at h
          exact absurd h (by simp)
      · rw [if_neg hD, if_neg hE] at h
        exact absurd h (by simp)

theorem parseFormatLine_none_of_not_starts {l : String}
    (h : startsWithFlagsThenWs (jsTrim l.data) = false) :
    parseFormatLine l = none := by
  cases hm : matchFormatLine (jsTrim l.data) with
  | none => simp [parseFormatLine, hm]
  | some r =>
    have hs := matchFormatLine_some_starts hm
    rw [h] at hs
    exact absurd hs (by decide)

theorem length_filterMap_lt_of_none {α β : Type} {f : α → Option β}
    {l : List α} (h : ∃ a ∈ l, f a = none) :
    (l.filterMap f).length < l.length := by
  induction l with
  | nil => simp at h
  | cons a l ih =>
    obtain ⟨b, hb, hnone⟩ := h
    rcases List.mem_cons.mp hb with rfl | hb
    · rw [List.filterMap_cons, hnone]
      exact Nat.lt_succ_of_le (List.length_filterMap_le f l)
    · cases hfa : f a with
      | none =>
        rw [List.filterMap_cons, hfa]
        exact Nat.lt_succ_of_le (List.length_filterMap_le f l)
      | some c =>
        rw [List.filterMap_cons, hfa]
        simpa using Nat.succ_lt_succ (ih ⟨b, hb, hnone⟩)

theorem filterMap_eq_nil_of_all_none {α β : Type} {f : α → Option β}
    {l : List α} (h : ∀ a ∈ l, f a = none) : l.filterMap f = [] := by
  induction l with
  | nil => rfl
  | cons a l ih =>
    rw [List.filterMap_cons, h a (List.mem_cons_self a l)]
    exact ih fun x hx => h x (List.mem_cons_of_mem a hx)

theorem find?_eq_head?_filter {α : Type} (p : α → Bool) (l : List α) :
    l.find? p = (l.filter p).head? := by
  induction l with
  | nil => rfl
  | cons a l ih =>
    by_cases h : p a
    · rw [List.find?_cons_of_pos _ h, List.filter_cons_of_pos h, List.head?_cons]
    · rw [List.find?_cons_of_neg _ h, List.filter_cons_of_neg h, ih]

/-! The claims. -/

/-- C5: the capability parser maps
`"D  asf    ASF (Advanced Streaming Format)"` to the descriptor with
`demuxingSupported` and not `muxingSupported`, maps
`"DE mp4    MP4 (MPEG-4 Part 14)"` to a descriptor with both flags, and in
general every matching line produces a descriptor with
`demuxingSupported = support flags contain 'D'` and
`muxingSupported = support flags contain 'E'`. -/
theorem getFormatsFromLog_flag_semantics :
    (getFormatsFromLog ["D  asf    ASF (Advanced Streaming Format)"] =
      [{ demuxingSupported := true, muxingSupported := false,
         abbreviation := "asf", name := "ASF (Advanced Streaming Format)" }])
  ∧ (getFormatsFromLog ["DE mp4    MP4 (MPEG-4 Part 14)"] =
      [{ demuxingSupported := true, muxingSupported := true,
         abbreviation := "mp4", name := "MP4 (MPEG-4 Part 14)" }])
  ∧ (∀ (line : String) (support abbr nm : List Char),
      matchFormatLine (jsTrim line.data) = some (support, abbr, nm) →
      parseFormatLine line =
        some { demuxingSupported := support.contains 'D'
               muxingSupported := support.contains 'E'
               abbreviation := String.mk abbr
               name := String.mk nm }) := by
  refine ⟨by decide, by decide, ?_⟩
  intro line support abbr nm h
  simp only [parseFormatLine, h]

/-- Witness for C5's general clause at the concrete line
`"E  webm   WebM"`. -/
theorem getFormatsFromLog_flag_semantics_witness :
    parseFormatLine "E  webm   WebM" =
      some { demuxingSupported := (['E'] : List Char).contains 'D'
             muxingSupported := (['E'] : List Char).contains 'E'
             abbreviation := String.mk ['w', 'e', 'b', 'm']
             name := String.mk ['W', 'e', 'b', 'M'] } :=
  getFormatsFromLog_flag_semantics.2.2 "E  webm   WebM"
    ['E'] ['w', 'e', 'b', 'm'] ['W', 'e', 'b', 'M'] (by decide)

/-- C6: the capability parser is a total function; it distributes over
append (and hence keeps matching lines in input order); its output is never
longer than its input; when no line matches it yields `[]`; lines whose
trimmed form does not start with flags `D`, `DE`, or `E` followed by
whitespace are excluded; and whenever such a line is present the output is
strictly shorter than the input. -/
theorem getFormatsFromLog_total_ordered (xs ys ls : List String) :
    (getFormatsFromLog (xs ++ ys) =
      getFormatsFromLog xs ++ getFormatsFromLog ys)
  ∧ ((getFormatsFromLog ls).length ≤ ls.length)
  ∧ ((∀ l ∈ ls, parseFormatLine l = none) → getFormatsFromLog ls = [])
  ∧ (∀ l : String, startsWithFlagsThenWs (jsTrim l.data) = false →
      getFormatsFromLog [l] = [])
  ∧ ((∃ l ∈ ls, startsWithFlagsThenWs (jsTrim l.data) = false) →
      (getFormatsFromLog ls).length < ls.length) := by
  refine ⟨List.filterMap_append xs ys parseFormatLine,
          List.length_filterMap_le parseFormatLine ls,
          fun h => filterMap_eq_nil_of_all_none h, ?_, ?_⟩
  · intro l h
    simp [getFormatsFromLog, parseFormatLine_none_of_not_starts h]
  · rintro ⟨l, hl, hns⟩
    exact length_filterMap_lt_of_none
      ⟨l, hl, parseFormatLine_none_of_not_starts hns⟩

/-- Witness for C6 at concrete line lists containing a non-matching line. -/
theorem getFormatsFromLog_total_ordered_witness :
    (getFormatsFromLog (["DE mp4 MP4"] ++ ["File formats:"]) =
      getFormatsFromLog ["DE mp4 MP4"] ++ getFormatsFromLog ["File formats:"])
  ∧ ((getFormatsFromLog ["File formats:", " --"]).length ≤ 2)
  ∧ (getFormatsFromLog ["File formats:", " --"] = [])
  ∧ (getFormatsFromLog ["File formats:"] = [])
  ∧ ((getFormatsFromLog ["File formats:", " --"]).length < 2) := by
  have h := getFormatsFromLog_total_ordered ["DE mp4 MP4"] ["File formats:"]
    ["File formats:", " --"]
  exact ⟨h.1, h.2.1, h.2.2.1 (by decide), h.2.2.2.1 "File formats:" (by decide),
    h.2.2.2.2 ⟨"File formats:", by decide, by decide⟩⟩

/-- Neither branch of `convertVideo` writes the progress store. -/
theorem convertVideo_progressTarget (s : OrchState) (v : DFile)
    (env : EngineEnv) :
    (convertVideo s v env).state.progressTarget = s.progressTarget := by
  by_cases h : env.execExitCode ≠ 0
  · simp [convertVideo, convertingEntryState, h]
  · cases hr : env.readFileResult <;>
      simp [convertVideo, convertingEntryState, h, hr]

/-- No branch of `onDropped` writes the progress store. -/
theorem onDropped_progressTarget (s : OrchState) (files : List DFile)
    (env : EngineEnv) :
    (onDropped s files env).state.progressTarget = s.progressTarget := by
  unfold onDropped
  split
  · rfl
  split
  · rfl
  split
  · rfl
  dsimp only
  split
  · rfl
  · exact convertVideo_progressTarget s _ env

/-- A post-startup state whose only discovered format is a demux- and
mux-capable mp4. -/
def mp4OnlyState : OrchState :=
  { status := .loaded, error := "",
    formats := [{ demuxingSupported := true, muxingSupported := true,
                  abbreviation := "mp4", name := "MP4 (MPEG-4 Part 14)" }],
    selectedOutputFormat := "mp4", progressTarget := 0 }

/-- A post-startup state whose only discovered format is a demux- and
mux-capable webm. -/
def webmOnlyState : OrchState :=
  { status := .loaded, error := "",
    formats := [{ demuxingSupported := true, muxingSupported := true,
                  abbreviation := "webm", name := "WebM" }],
    selectedOutputFormat := "webm", progressTarget := 0 }

/-- `mp4OnlyState` after a finished job left a stale error, status Done. -/
def staleDoneState : OrchState :=
  { mp4OnlyState with status := .convertDone, error := "old" }

/-- `mp4OnlyState` after a failed job left a stale error, status Failed. -/
def staleFailedState : OrchState :=
  { mp4OnlyState with status := .convertError, error := "old" }

/-- C1 (the code at the failing input): the single dropped file
`"movie.xyz"` has extension `"xyz"`, which is the abbreviation of no
discovered format, yet the handler accepts it — a conversion runs and the
status ends at `convert.done` with no error — because the `find?`
predicate of the source ignores its format argument
(`file.name.endsWith(fileFormat)` is always true), so any nonempty
demux-capable set accepts every extension. -/
theorem onDropped_accepts_unmatched_extension :
    ((onDropped mp4OnlyState [⟨"movie.xyz"⟩]
        ⟨0, some [7]⟩).conversion.isSome = true)
  ∧ (onDropped mp4OnlyState [⟨"movie.xyz"⟩] ⟨0, some [7]⟩).state.status =
      .convertDone
  ∧ (onDropped mp4OnlyState [⟨"movie.xyz"⟩] ⟨0, some [7]⟩).state.error = ""
  ∧ (∀ f ∈ mp4OnlyState.formats, f.abbreviation ≠ "xyz") := by
  refine ⟨?_, ?_, ?_, ?_⟩ <;> decide

/-- C2 (the code at the failing input): with selected output format
`"avi"` the argument vector passed to `execute` names `"output.avi"`,
but the virtual filename read back is the fixed `"output.mp4"` — the two
differ for every selected format other than mp4. -/
theorem convertVideo_readback_filename_mismatch :
    ((convertVideo { mp4OnlyState with selectedOutputFormat := "avi" }
        ⟨"a.avi"⟩ ⟨0, some [7]⟩).argv = ["-i", "input.webm", "output.avi"])
  ∧ ((convertVideo { mp4OnlyState with selectedOutputFormat := "avi" }
        ⟨"a.avi"⟩ ⟨0, some [7]⟩).readBack = some "output.mp4")
  ∧ ("output.mp4" ≠ "output.avi") := by
  refine ⟨?_, ?_, ?_⟩ <;> decide

/-- C3 (counterexample): in the startup trace for a capability listing
with one format, the snapshot at index 2 — right after the engine load —
already has status `loaded` while its format list is still empty; the
discovery result is only assigned at index 3.  So the status becomes
Loaded before capability discovery completes, against the claim. -/
theorem loadFFmpeg_loaded_before_discovery :
    ((loadFFmpegTrace ["DE mp4    MP4 (MPEG-4 Part 14)"] initState).get? 2 =
      some { initState with status := .loaded })
  ∧ ((loadFFmpegTrace ["DE mp4    MP4 (MPEG-4 Part 14)"] initState).get? 2
      |>.map OrchState.formats) = some []
  ∧ ((loadFFmpegTrace ["DE mp4    MP4 (MPEG-4 Part 14)"] initState).get? 3
      |>.map OrchState.formats) =
      some [{ demuxingSupported := true, muxingSupported := true,
              abbreviation := "mp4", name := "MP4 (MPEG-4 Part 14)" }] := by
  refine ⟨?_, ?_, ?_⟩ <;> decide

/-- C3 (amended): in every execution of startup the status is set to
Loaded immediately after the engine load succeeds and before capability
discovery completes; the format list is populated one step later, while
the status is already Loaded. -/
theorem loadFFmpeg_loaded_precedes_discovery (logs : List String)
    (init : OrchState) :
    ((loadFFmpegTrace logs init).get? 2 = some { init with status := .loaded })
  ∧ ((loadFFmpegTrace logs init).get? 3 = some (discoveredState logs init))
  ∧ (discoveredState logs init).status = .loaded
  ∧ (discoveredState logs init).formats = getFormatsFromLog logs := by
  exact ⟨rfl, rfl, rfl, rfl⟩

/-- C4: a conversion clears the prior error on entry; a non-zero exit
code ends the job in `convert.error` with the fixed non-empty message and
returns no bytes; exit code 0 followed by a successful read of the output
file ends the job in `convert.done`, with the entry-cleared error still
empty and the read bytes returned. -/
theorem convertVideo_terminal_outcomes (s : OrchState) (v : DFile)
    (env : EngineEnv) :
    ((convertingEntryState s).error = ""
      ∧ (convertingEntryState s).status = .convertStart)
  ∧ (env.execExitCode ≠ 0 →
      (convertVideo s v env).state.status = .convertError
      ∧ (convertVideo s v env).state.error = "Failed to convert video"
      ∧ (convertVideo s v env).state.error ≠ ""
      ∧ (convertVideo s v env).data = none)
  ∧ (∀ bytes, env.execExitCode = 0 → env.readFileResult = some bytes →
      (convertVideo s v env).state.status = .convertDone
      ∧ (convertVideo s v env).state.error = ""
      ∧ (convertVideo s v env).data = some bytes) := by
  refine ⟨⟨rfl, rfl⟩, ?_, ?_⟩
  · intro h
    simp [convertVideo, convertingEntryState, h]
  · intro bytes h0 hr
    simp [convertVideo, convertingEntryState, h0, hr]

/-- Witness for C4 at concrete inputs: a failing exit code from a state
carrying a stale error, and a succeeding run from a `convert.error`
state. -/
theorem convertVideo_terminal_outcomes_witness :
    ((convertVideo staleDoneState ⟨"a.mp4"⟩ ⟨1, none⟩).state.status =
        .convertError
      ∧ (convertVideo staleDoneState ⟨"a.mp4"⟩ ⟨1, none⟩).state.error =
          "Failed to convert video"
      ∧ (convertVideo staleDoneState ⟨"a.mp4"⟩ ⟨1, none⟩).state.error ≠ ""
      ∧ (convertVideo staleDoneState ⟨"a.mp4"⟩ ⟨1, none⟩).data = none)
  ∧ ((convertVideo staleFailedState ⟨"b.mp4"⟩ ⟨0, some [3]⟩).state.status =
        .convertDone
      ∧ (convertVideo staleFailedState ⟨"b.mp4"⟩ ⟨0, some [3]⟩).state.error
          = ""
      ∧ (convertVideo staleFailedState ⟨"b.mp4"⟩ ⟨0, some [3]⟩).data =
          some [3]) :=
  ⟨(convertVideo_terminal_outcomes staleDoneState
      ⟨"a.mp4"⟩ ⟨1, none⟩).2.1 (by decide),
   (convertVideo_terminal_outcomes staleFailedState
      ⟨"b.mp4"⟩ ⟨0, some [3]⟩).2.2 [3] rfl rfl⟩

/-- C7: a drop carrying more than one file leaves the status unchanged in
every state, sets the error to exactly "Only one file is allowed", and
starts no conversion. -/
theorem onDropped_multi_file_rejected (s : OrchState) (files : List DFile)
    (env : EngineEnv) (h : files.length > 1) :
    (onDropped s files env).state =
      { s with error := "Only one file is allowed" }
  ∧ (onDropped s files env).state.status = s.status
  ∧ (onDropped s files env).conversion = none := by
  have h0 : ¬ files.length = 0 := by omega
  unfold onDropped
  rw [if_neg h0, if_pos h]
  exact ⟨rfl, rfl, rfl⟩

/-- Witness for C7: two files dropped from a state with a stale error. -/
theorem onDropped_multi_file_rejected_witness :
    (onDropped staleDoneState
        [⟨"a.webm"⟩, ⟨"b.webm"⟩] ⟨0, some [1]⟩).state =
      { staleDoneState with error := "Only one file is allowed" }
  ∧ (onDropped staleDoneState
        [⟨"a.webm"⟩, ⟨"b.webm"⟩] ⟨0, some [1]⟩).state.status = .convertDone
  ∧ (onDropped staleDoneState
        [⟨"a.webm"⟩, ⟨"b.webm"⟩] ⟨0, some [1]⟩).conversion = none :=
  onDropped_multi_file_rejected staleDoneState
    [⟨"a.webm"⟩, ⟨"b.webm"⟩] ⟨0, some [1]⟩ (by decide)

/-- C8 (counterexample): run one successful conversion from a loaded
state, apply the final progress sample of that job (fraction 1, displayed
value 100), then drop a second valid file.  The new conversion is
accepted, but the progress value at the entry into the converting state
is still 100, not 0: no code path resets it. -/
theorem progress_not_reset_on_reentry :
    ((convertingEntryState (onProgressEvent
        (onDropped webmOnlyState [⟨"a.webm"⟩] ⟨0, some [7]⟩).state
        1)).status = .convertStart)
  ∧ (convertingEntryState (onProgressEvent
        (onDropped webmOnlyState [⟨"a.webm"⟩] ⟨0, some [7]⟩).state
        1)).progressTarget = 100
  ∧ (convertingEntryState (onProgressEvent
        (onDropped webmOnlyState [⟨"a.webm"⟩] ⟨0, some [7]⟩).state
        1)).progressTarget ≠ 0
  ∧ (onDropped (onProgressEvent
        (onDropped webmOnlyState [⟨"a.webm"⟩] ⟨0, some [7]⟩).state 1)
        [⟨"b.webm"⟩] ⟨0, some [8]⟩).conversion.isSome = true := by
  refine ⟨rfl, ?_, ?_, ?_⟩
  · show (1 : ℚ) * 100 = 100
    norm_num
  · show (1 : ℚ) * 100 ≠ 0
    norm_num
  · decide

/-- C8 (amended): the progress value is initialized to 0 once at
component creation and is not reset on entry into the converting state:
neither the entry statements of `convertVideo` nor any branch of the drop
handler writes the progress store, so a re-entered job starts displaying
the previous job's last value until its own first sample arrives. -/
theorem progress_initialized_once_never_reset (s : OrchState)
    (files : List DFile) (v : DFile) (env : EngineEnv) :
    initState.progressTarget = 0
  ∧ (convertingEntryState s).progressTarget = s.progressTarget
  ∧ (convertVideo s v env).state.progressTarget = s.progressTarget
  ∧ (onDropped s files env).state.progressTarget = s.progressTarget :=
  ⟨rfl, rfl, convertVideo_progressTarget s v env,
   onDropped_progressTarget s files env⟩

/-- C9: for every produced byte sequence — and independently of whatever
output format is selected — the download artifact carries the fixed
filename "output.mp4" and MIME type "video/mp4". -/
theorem download_fixed_name_and_mime (data : List Nat)
    (_selectedOutputFormat : String) :
    (download data).filename = "output.mp4"
  ∧ (download data).mime = "video/mp4"
  ∧ (download data).bytes = data :=
  ⟨rfl, rfl, rfl⟩

/-- C10: after capability discovery, the selected output format is the
abbreviation of the first parsed format with `muxingSupported`, and stays
the initial empty string when no parsed format supports muxing. -/
theorem selectedOutputFormat_first_muxer (logs : List String) :
    (∀ f, (getFormatsFromLog logs).find? (fun f => f.muxingSupported) =
        some f →
      (selectedState logs initState).selectedOutputFormat = f.abbreviation)
  ∧ ((getFormatsFromLog logs).find? (fun f => f.muxingSupported) = none →
      (selectedState logs initState).selectedOutputFormat = "") := by
  cases hf : (getFormatsFromLog logs).filter (fun f => f.muxingSupported) with
  | nil =>
    have hfind : (getFormatsFromLog logs).find? (fun f => f.muxingSupported)
        = none := by
      rw [find?_eq_head?_filter, hf]; rfl
    refine ⟨?_, ?_⟩
    · intro f hsome
      rw [hfind] at hsome
      cases hsome
    · intro _
      simp [selectedState, discoveredState, hf, initState]
  | cons f rest =>
    have hfind : (getFormatsFromLog logs).find? (fun f => f.muxingSupported)
        = some f := by
      rw [find?_eq_head?_filter, hf]; rfl
    refine ⟨?_, ?_⟩
    · intro g hsome
      rw [hfind] at hsome
      cases hsome
      simp [selectedState, discoveredState, hf]
    · intro hnone
      rw [hfind] at hnone
      cases hnone

/-- Witness for C10: a listing with a muxer selects its abbreviation; a
demux-only listing leaves the selection empty. -/
theorem selectedOutputFormat_first_muxer_witness :
    (selectedState ["DE mp4    MP4 (MPEG-4 Part 14)"]
        initState).selectedOutputFormat = "mp4"
  ∧ (selectedState ["D  asf    ASF (Advanced Streaming Format)"]
        initState).selectedOutputFormat = "" :=
  ⟨(selectedOutputFormat_first_muxer ["DE mp4    MP4 (MPEG-4 Part 14)"]).1
      { demuxingSupported := true, muxingSupported := true,
        abbreviation := "mp4", name := "MP4 (MPEG-4 Part 14)" } (by decide),
   (selectedOutputFormat_first_muxer
      ["D  asf    ASF (Advanced Streaming Format)"]).2 (by decide)⟩

end WasmPoc
